import Mathlib

/-!
Shallow embedding of the FriendlyChat browser client (src/scripts/main.js):
the call-state coordinator, the roster synchronizer, the message feed
renderer, and user-input validation, together with theorems settling the
specification's claims about them.  Each definition mirrors one function of
the source file; line numbers in the doc comments refer to
src/scripts/main.js.
-/

namespace FriendlyChat

/-- Outstanding getUserMedia success continuations (the callback argument of
initMeidaStream, lines 446-455).  retryCall models
this.callToUser.bind(this) passed at line 484; note that the success path of
initMeidaStream invokes the callback as cb() with no argument, so the retry
runs callToUser with the JS value undefined.  signInInit models the callback
registered in onAuthStateChanged at lines 201-210 (initPeerJs; saveUser;
loadUsers). -/
inductive Cont
  | retryCall
  | signInInit
deriving DecidableEq

/-- A broker call handle (this.call): the remote peer id exactly as it was
passed to the broker (none models the JS value undefined), and which of the
coordinator's teardown handlers are registered on it.  callToUser
(lines 495-500) registers both a close handler and an error handler;
answerCall (lines 533-541) registers only an error handler (plus a stream
handler that does not touch the session). -/
structure CallHandle where
  peer : Option String
  onCloseEnds : Bool
  onErrorEnds : Bool
deriving DecidableEq

/-- The mutable fields of the FriendlyChat object that the call-state
coordinator reads and writes: this.auth.currentUser (as the uid),
this.mediaStream, this.peer, this.peerId, this.call, plus the list of
outstanding getUserMedia continuations and a counter used to hand out fresh
stream handles. -/
structure State where
  currentUser : Option String
  mediaStream : Option Nat
  peer : Option Nat
  peerId : Option String
  call : Option CallHandle
  pending : List Cont
  nextStreamId : Nat
deriving DecidableEq

/-- Externally visible actions performed by the coordinator, in program
order: store subscriptions, media acquisition, broker calls, call teardown,
roster redisplay, snackbar notifications and console logging. -/
inductive Effect
  | loadMessages
  | acquireMedia
  | attachLocalVideo
  | saveUser
  | loadUsers
  | clearUsers
  | reloadUsers
  | destroyPeer
  | closeCall (peer : Option String)
  | brokerCall (peer : Option String)
  | answer (peer : Option String)
  | snackbar (msg : String)
  | logError
deriving DecidableEq

/-- endCall (lines 546-552): if a session exists, close it, null the field
and trigger a full roster rebuild-and-redisplay; otherwise do nothing. -/
def endCall (s : State) : State × List Effect :=
  match s.call with
  | some c => ({ s with call := none }, [Effect.closeCall c.peer, Effect.reloadUsers])
  | none => (s, [])

/-- initMeidaStream (lines 446-455): starts a getUserMedia request and
records the continuation to run when it succeeds. -/
def initMeidaStream (cb : Cont) (s : State) : State × List Effect :=
  ({ s with pending := s.pending ++ [cb] }, [Effect.acquireMedia])

/-- checkSignedInWithMessage (lines 229-241): true when signed in, otherwise
false after showing a snackbar. -/
def checkSignedInWithMessage (s : State) : Bool × List Effect :=
  match s.currentUser with
  | some _ => (true, [])
  | none => (false, [Effect.snackbar "You must sign-in first"])

/-- initPeerJs (lines 457-473): when signed in, creates the broker session
(new Peer) and stores it in this.peer; the open, call, close and error
handlers are registered on it.  When signed out only the snackbar from the
sign-in check happens. -/
def initPeerJs (s : State) : State × List Effect :=
  let r := checkSignedInWithMessage s
  if r.1 then ({ s with peer := some 1 }, r.2) else (s, r.2)

/-- saveUser (lines 337-350): when signed in, writes the user record (with
the current peer id) to the store; otherwise only the snackbar happens. -/
def saveUser (s : State) : List Effect :=
  let r := checkSignedInWithMessage s
  if r.1 then r.2 ++ [Effect.saveUser] else r.2

/-- callToUser (lines 482-503).  If no media stream is cached the attempt is
deferred: initMeidaStream is started with this.callToUser.bind(this) as the
continuation and nothing else happens.  Otherwise the broker session is
created on demand, any existing session is ended first, the outbound call is
placed (registering close and error handlers on it) and the roster is
rebuilt.  The result is none when this.peer is still null at the
this.peer.call step (signed out), modelling the thrown TypeError. -/
def callToUser (peerId : Option String) (s : State) : Option (State × List Effect) :=
  if s.mediaStream = none then
    some (initMeidaStream Cont.retryCall s)
  else
    let r1 := if s.peer = none then initPeerJs s else (s, [])
    let r2 := if r1.1.call.isSome then endCall r1.1 else (r1.1, [])
    match r2.1.peer with
    | none => none
    | some _ =>
        some ({ r2.1 with call := some ⟨peerId, true, true⟩ },
              r1.2 ++ r2.2 ++ [Effect.brokerCall peerId, Effect.reloadUsers])

/-- answerCall (lines 529-544): any existing session is ended first, the
inbound call becomes the session, it is answered with this.mediaStream, a
stream handler and an error handler (but no close handler) are registered on
it, and the roster is rebuilt. -/
def answerCall (callPeer : Option String) (s : State) : State × List Effect :=
  let r1 := if s.call.isSome then endCall s else (s, [])
  ({ r1.1 with call := some ⟨callPeer, false, true⟩ },
   r1.2 ++ [Effect.answer callPeer, Effect.reloadUsers])

/-- Broker events that can be delivered on the active call object. -/
inductive CallEv
  | close
  | error
deriving DecidableEq

/-- Delivery of a broker event on the current session: a handler runs only
if the corresponding registration was made on the call object.  The close
handler is endCall (line 496); the error handler logs and then runs endCall
(lines 497-500 and 538-541). -/
def deliverCallEvent (e : CallEv) (s : State) : State × List Effect :=
  match s.call with
  | none => (s, [])
  | some c =>
      match e with
      | CallEv.close => if c.onCloseEnds then endCall s else (s, [])
      | CallEv.error =>
          if c.onErrorEnds then
            let r := endCall s
            (r.1, Effect.logError :: r.2)
          else (s, [])

/-- Running a stored getUserMedia continuation after this.mediaStream has
been set.  retryCall invokes callToUser with no argument (cb() at line 450),
hence with peer id none (undefined); signInInit runs initPeerJs, saveUser
and loadUsers (lines 201-210). -/
def runCont (c : Cont) (s : State) : Option (State × List Effect) :=
  match c with
  | Cont.retryCall => callToUser none s
  | Cont.signInInit =>
      let r1 := initPeerJs s
      some (r1.1, r1.2 ++ saveUser r1.1 ++ [Effect.loadUsers])

/-- External events driving the coordinator: auth state changes
(onAuthStateChanged, lines 180-226), a user clicking a call button
(callToUser with that entry's peer id), and resolution of the oldest
outstanding getUserMedia request (success or failure, lines 447-454). -/
inductive Ev
  | signIn (uid : String)
  | signOut
  | userCall (p : String)
  | acqOk
  | acqFail
deriving DecidableEq

/-- One step of the event system.  Sign-in loads messages and
unconditionally starts media acquisition with the signInInit continuation;
sign-out destroys the broker session and clears the roster (the media
stream is not touched); a user call runs callToUser; acqOk caches a fresh
stream, attaches the local video and runs the stored continuation; acqFail
only logs (line 453). -/
def step (e : Ev) (s : State) : Option (State × List Effect) :=
  match e with
  | Ev.signIn uid =>
      let r := initMeidaStream Cont.signInInit { s with currentUser := some uid }
      some (r.1, Effect.loadMessages :: r.2)
  | Ev.signOut =>
      let s1 : State := { s with currentUser := none }
      let r := if s1.peer.isSome then (({ s1 with peer := none } : State), [Effect.destroyPeer])
               else (s1, ([] : List Effect))
      some (r.1, r.2 ++ [Effect.clearUsers])
  | Ev.userCall p => callToUser (some p) s
  | Ev.acqOk =>
      match s.pending with
      | [] => some (s, [])
      | c :: rest =>
          let s1 : State :=
            { s with mediaStream := some s.nextStreamId,
                     nextStreamId := s.nextStreamId + 1,
                     pending := rest }
          match runCont c s1 with
          | some r => some (r.1, Effect.attachLocalVideo :: r.2)
          | none => none
  | Ev.acqFail =>
      match s.pending with
      | [] => some (s, [])
      | _ :: rest => some ({ s with pending := rest }, [Effect.logError])

/-- Runs a sequence of external events, collecting the effect trace; none
means an unhandled exception was thrown along the way. -/
def run : List Ev → State → Option (State × List Effect)
  | [], s => some (s, [])
  | e :: es, s =>
      match step e s with
      | none => none
      | some r1 =>
          match run es r1.1 with
          | none => none
          | some r2 => some (r2.1, r1.2 ++ r2.2)

/-- Number of occurrences of an effect in a trace. -/
def countEffect (e : Effect) (l : List Effect) : Nat :=
  (l.filter (fun x => decide (x = e))).length

/-- A stored user record (users collection entry, lines 343-348): display
name, optional photo url, optional peer id. -/
structure URec where
  name : String
  photoUrl : Option String
  peerId : Option String
deriving DecidableEq

/-- The users collection (and likewise the rendered Roster View): an
association list from uid to record, in document order. -/
abbrev Roster := List (String × URec)

/-- The uids of a roster, in order. -/
def keys (c : Roster) : List String := c.map Prod.fst

/-- displayUser (lines 393-444) at the entry level: getElementById(uid)
finds an existing entry and updates it in place, otherwise a fresh entry is
created and appended to the user list. -/
def displayUser (uid : String) (r : URec) : Roster → Roster
  | [] => [(uid, r)]
  | e :: rest => if e.1 = uid then (uid, r) :: rest else e :: displayUser uid r rest

/-- The store writing a child under a key (userRef.set, line 343): replaces
the entry at that key or appends a new one. -/
def storeSet (uid : String) (r : URec) : Roster → Roster
  | [] => [(uid, r)]
  | e :: rest => if e.1 = uid then (uid, r) :: rest else e :: storeSet uid r rest

/-- The store removing the child at a key (onDisconnect().remove(),
line 342). -/
def removeKey (uid : String) : Roster → Roster
  | [] => []
  | e :: rest => if e.1 = uid then removeKey uid rest else e :: removeKey uid rest

/-- A mutation of the users collection: a child write (producing a
child_added or child_changed event) or a child removal (producing a
child_removed event when the key was present). -/
inductive UserMut
  | set (uid : String) (r : URec)
  | remove (uid : String)

/-- Effect of a mutation on the stored collection. -/
def applyMut : UserMut → Roster → Roster
  | UserMut.set uid r, c => storeSet uid r c
  | UserMut.remove uid, c => removeKey uid c

/-- loadUsers (lines 352-369): subscribing replays a child_added event for
every entry currently in the collection, in order, each handled by
displayUser into the (empty) view. -/
def loadUsers (c : Roster) : Roster :=
  c.foldl (fun v e => displayUser e.1 e.2 v) []

/-- reloadUsers (lines 371-374): clearUsers discards the whole view, then
loadUsers rebuilds it from the collection. -/
def reloadUsers (c : Roster) : Roster := loadUsers c

/-- One collection mutation processed by the roster synchronizer: the store
applies it, then the registered handler runs (setUser, i.e. displayUser, on
child_added and child_changed at lines 366-367; reloadUsers on child_removed
at lines 363-368, fired only when the key was present). -/
def rosterStep (st : Roster × Roster) (m : UserMut) : Roster × Roster :=
  let c2 := applyMut m st.1
  match m with
  | UserMut.set uid r => (c2, displayUser uid r st.2)
  | UserMut.remove uid => if uid ∈ keys st.1 then (c2, reloadUsers c2) else (c2, st.2)

/-- Full run of the roster synchronizer: initial subscription over the
starting collection, then a sequence of mutations. -/
def rosterRun (ms : List UserMut) (c0 : Roster) : Roster × Roster :=
  ms.foldl rosterStep (c0, loadUsers c0)

/-- The call affordance rendered on a roster entry. -/
inductive Affordance
  | noBtn
  | callBtn (p : String)
  | callEndBtn
deriving DecidableEq

/-- The affordance computation of displayUser (lines 408-440): the local
user's own entry has its phone button removed; a remote entry without a peer
id gets no icon and no listener; a remote entry with peer id p shows the
call_end icon wired to endCall when the broker has a connection under p, and
otherwise the call icon wired to callToUser(p).  connections is the set of
peer ids with entries in this.peer.connections. -/
def callAffordance (currentUid uid : String) (peerId : Option String)
    (connections : List String) : Affordance :=
  if currentUid = uid then Affordance.noBtn
  else
    match peerId with
    | none => Affordance.noBtn
    | some p => if p ∈ connections then Affordance.callEndBtn else Affordance.callBtn p

/-- The loading image constant (line 258). -/
def LOADING_IMAGE_URL : String := "https://www.google.com/images/spin-32.gif"

/-- JS truthiness of an optional string field: present and nonempty. -/
def truthy (v : Option String) : Bool :=
  match v with
  | some s => decide (s ≠ "")
  | none => false

/-- The newline-to-line-break replacement of line 279. -/
def newlinesToBr (s : String) : String := s.replace "\n" "<br>"

/-- setImageUrl (lines 108-120), described by the src values the img element
renders: for a storage locator (gs:// prefix) the loading placeholder is
shown first (the initial synchronous assignments at lines 109 and 113 are
overwritten before rendering) and the asynchronously resolved download url
replaces it later on the same element; a direct url is shown as is, with no
asynchronous update.  resolve stands for the external storage metadata
lookup. -/
def setImageUrl (resolve : String → String) (imageUri : String) : String × Option String :=
  if imageUri.startsWith "gs://" then (LOADING_IMAGE_URL, some (resolve imageUri))
  else (imageUri, none)

/-- The rendered body of a message entry: text (after newline replacement),
or an image with its first shown src and an optional pending asynchronous
src update, or nothing. -/
inductive MsgBody
  | textBody (s : String)
  | imageBody (src : String) (pendingSrc : Option String)
  | emptyBody
deriving DecidableEq

/-- The body branch of displayMessage (lines 276-288) together with a flag
recording whether setImageUrl was invoked: a truthy text takes the text
path; otherwise a truthy imageUrl takes the image path through
setImageUrl. -/
def renderMessage (resolve : String → String) (text imageUri : Option String) :
    MsgBody × Bool :=
  if truthy text then (MsgBody.textBody (newlinesToBr (text.getD "")), false)
  else if truthy imageUri then
    let r := setImageUrl resolve (imageUri.getD "")
    (MsgBody.imageBody r.1 r.2, true)
  else (MsgBody.emptyBody, false)

/-- A rendered message entry in the feed, keyed by the store-assigned
key. -/
structure MsgEntry where
  key : String
  name : String
  picUrl : Option String
  body : MsgBody
deriving DecidableEq

/-- displayMessage (lines 261-291) at the feed level: getElementById(key)
finds an existing entry, which is updated in place (the profile picture only
when the new value is truthy, line 271); otherwise a new entry is created
and appended. -/
def displayMessage (resolve : String → String) (key name : String)
    (text picUrl imageUri : Option String) : List MsgEntry → List MsgEntry
  | [] => [⟨key, name, if truthy picUrl then picUrl else none,
           (renderMessage resolve text imageUri).1⟩]
  | e :: rest =>
      if e.key = key then
        ⟨key, name, if truthy picUrl then picUrl else e.picUrl,
         (renderMessage resolve text imageUri).1⟩ :: rest
      else e :: displayMessage resolve key name text picUrl imageUri rest

/-- Number of feed entries carrying a given key. -/
def countKey (k : String) : List MsgEntry → Nat
  | [] => 0
  | e :: rest => (if e.key = k then 1 else 0) + countKey k rest

/-- Child event kinds of a store collection subscription. -/
inductive ChildEvent
  | added
  | changed
  | removed
deriving DecidableEq

/-- A registered subscription: the limitToLast window and the event kind. -/
structure Subscription where
  limitLast : Nat
  event : ChildEvent
deriving DecidableEq

/-- loadMessages (lines 71-84): the subscriptions it registers, both over
the last 12 entries and both handled by displayMessage. -/
def loadMessages : List Subscription :=
  [⟨12, ChildEvent.added⟩, ⟨12, ChildEvent.changed⟩]

/-- Externally visible actions of the message-saving paths. -/
inductive MsgEffect
  | snackbarNote (msg : String)
  | storePush
  | storageUpload
  | clearInput
deriving DecidableEq

/-- saveMessage (lines 87-105): the guard at line 90 is
this.messageInput.value && this.checkSignedInWithMessage(); an empty input
short-circuits before the sign-in check, so nothing at all happens.  With a
nonempty input, a signed-out user only gets the snackbar; a signed-in user
pushes the message and the input is cleared on success. -/
def saveMessage (inputValue : String) (signedIn : Bool) : List MsgEffect :=
  if inputValue ≠ "" then
    if signedIn then [MsgEffect.storePush, MsgEffect.clearInput]
    else [MsgEffect.snackbarNote "You must sign-in first"]
  else []

/-- Character-list test for "pat occurs at the front of l". -/
def leadsWith : List Char → List Char → Bool
  | [], _ => true
  | _ :: _, [] => false
  | a :: as, b :: bs => decide (a = b) && leadsWith as bs

/-- Character-list test for "pat occurs somewhere in l". -/
def occursIn (pat : List Char) : List Char → Bool
  | [] => leadsWith pat []
  | b :: bs => leadsWith pat (b :: bs) || occursIn pat bs

/-- The file.type.match('image.*') test of line 131: the regex matches
anywhere in the string, so it tests whether the type contains "image". -/
def matchesImageType (t : String) : Bool := occursIn "image".toList t.toList

/-- saveImageMessage (lines 124-164): a non-image file only shows the
snackbar and returns; otherwise a signed-out user only gets the sign-in
snackbar, and a signed-in user pushes the placeholder message and starts the
upload. -/
def saveImageMessage (fileType : String) (signedIn : Bool) : List MsgEffect :=
  if !matchesImageType fileType then
    [MsgEffect.snackbarNote "You can only share images"]
  else if signedIn then [MsgEffect.storePush, MsgEffect.storageUpload]
  else [MsgEffect.snackbarNote "You must sign-in first"]

/-- A rendered roster entry as the inbound-call path sees it: the container
div's id (the uid), the name text, and the id carried by the phone button
(set to the peer id at line 416 only for remote entries with a peer id). -/
structure RosterEntry where
  uid : String
  name : String
  phoneBtnId : Option String
deriving DecidableEq

/-- getUserByPeerId (lines 505-514): document.getElementById(peerId) finds
the phone button carrying that id; its parent is the entry div whose id is
the uid.  When no element carries the id, getElementById yields null and
div.parentNode throws, modelled by none. -/
def getUserByPeerId (roster : List RosterEntry) (p : String) :
    Option (String × String) :=
  match roster.find? (fun e => decide (e.phoneBtnId = some p)) with
  | some e => some (e.uid, e.name)
  | none => none

/-- The snackbar data built by reciveCall (lines 518-525). -/
structure SnackbarData where
  message : String
  timeout : Nat
  hasAnswerAction : Bool
deriving DecidableEq

/-- reciveCall (lines 516-527): resolves the caller through getUserByPeerId
and surfaces the 6-second answer notification; when the lookup dereferences
null, the TypeError propagates before any notification, modelled by
Except.error. -/
def reciveCall (roster : List RosterEntry) (callerPeer : String) :
    Except Unit SnackbarData :=
  match getUserByPeerId roster callerPeer with
  | none => Except.error ()
  | some u => Except.ok ⟨"Calling From " ++ u.2, 6000, true⟩

/-- Equation lemma: callToUser with a cached stream and a signed-in user
always succeeds, creating the broker session on demand, ending any prior
session first and registering both teardown handlers on the new call. -/
theorem callToUser_some (p : Option String) (u : String) (m : Nat) (pe : Option Nat)
    (pid : Option String) (ca : Option CallHandle) (pen : List Cont) (n : Nat) :
    callToUser p ⟨some u, some m, pe, pid, ca, pen, n⟩ =
      some (⟨some u, some m, (match pe with | some k => some k | none => some 1), pid,
             some ⟨p, true, true⟩, pen, n⟩,
            (match ca with
             | some c => [Effect.closeCall c.peer, Effect.reloadUsers]
             | none => []) ++ [Effect.brokerCall p, Effect.reloadUsers]) := by
  cases pe <;> cases ca <;> rfl

/-- Equation lemma: callToUser with a cached stream and an existing broker
session succeeds regardless of the signed-in state. -/
theorem callToUser_peer_some (p : Option String) (cu : Option String) (m : Nat) (k : Nat)
    (pid : Option String) (ca : Option CallHandle) (pen : List Cont) (n : Nat) :
    callToUser p ⟨cu, some m, some k, pid, ca, pen, n⟩ =
      some (⟨cu, some m, some k, pid, some ⟨p, true, true⟩, pen, n⟩,
            (match ca with
             | some c => [Effect.closeCall c.peer, Effect.reloadUsers]
             | none => []) ++ [Effect.brokerCall p, Effect.reloadUsers]) := by
  cases ca <;> rfl

/-- Equation lemma: callToUser with a cached stream, no broker session and a
signed-out user throws at the this.peer.call step. -/
theorem callToUser_cached_crash (p : Option String) (m : Nat) (pid : Option String)
    (ca : Option CallHandle) (pen : List Cont) (n : Nat) :
    callToUser p ⟨none, some m, none, pid, ca, pen, n⟩ = none := by
  cases ca <;> rfl

/-- Equation lemma: callToUser without a cached stream only defers, storing
the no-argument retry continuation and starting acquisition. -/
theorem callToUser_nostream (p : Option String) (s : State) (h : s.mediaStream = none) :
    callToUser p s =
      some ({ s with pending := s.pending ++ [Cont.retryCall] }, [Effect.acquireMedia]) := by
  obtain ⟨cu, ms, pe, pid, ca, pen, n⟩ := s
  have h2 : ms = none := h
  subst h2
  rfl

/-- Equation lemma: answerCall ends any prior session, installs the inbound
call (with only the error teardown handler) and reloads the roster. -/
theorem answerCall_eq (q : Option String) (s : State) :
    answerCall q s =
      ({ s with call := some ⟨q, false, true⟩ },
       (match s.call with
        | some c => [Effect.closeCall c.peer, Effect.reloadUsers]
        | none => []) ++ [Effect.answer q, Effect.reloadUsers]) := by
  obtain ⟨cu, ms, pe, pid, ca, pen, n⟩ := s
  cases ca <;> rfl

/-- Claim C1: the local client holds at most one active call session.  When
a call is actually started (a media stream is cached and the user is signed
in), callToUser yields a state whose single session slot holds exactly the
new outbound call, and whenever a prior session existed its close effect
occurs in the effect prefix emitted before the broker call is placed;
answerCall likewise leaves exactly the answered call as the session, closing
any prior session first. -/
theorem callToUser_answerCall_single_session (s : State) (p : String) (q : Option String)
    (m : Nat) (u : String) (hm : s.mediaStream = some m) (hu : s.currentUser = some u) :
    (∃ s1 effs1 pre1,
      callToUser (some p) s = some (s1, effs1) ∧
      s1.call = some ⟨some p, true, true⟩ ∧
      effs1 = pre1 ++ [Effect.brokerCall (some p), Effect.reloadUsers] ∧
      (∀ c, s.call = some c → Effect.closeCall c.peer ∈ pre1)) ∧
    (∃ s2 effs2 pre2,
      answerCall q s = (s2, effs2) ∧
      s2.call = some ⟨q, false, true⟩ ∧
      effs2 = pre2 ++ [Effect.answer q, Effect.reloadUsers] ∧
      (∀ c, s.call = some c → Effect.closeCall c.peer ∈ pre2)) := by
  obtain ⟨cu, ms, pe, pid, ca, pen, n⟩ := s
  have hm2 : ms = some m := hm
  have hu2 : cu = some u := hu
  subst hm2
  subst hu2
  constructor
  · cases ca with
    | none =>
        refine ⟨_, _, [], callToUser_some (some p) u m pe pid none pen n, rfl, rfl, ?_⟩
        intro c hc
        exact Option.noConfusion hc
    | some c0 =>
        refine ⟨_, _, [Effect.closeCall c0.peer, Effect.reloadUsers],
          callToUser_some (some p) u m pe pid (some c0) pen n, rfl, rfl, ?_⟩
        intro c hc
        have hc2 : some c0 = some c := hc
        rw [Option.some.injEq] at hc2
        subst hc2
        exact List.mem_cons_self _ _
  · cases ca with
    | none =>
        refine ⟨_, _, [],
          answerCall_eq q ⟨some u, some m, pe, pid, none, pen, n⟩, rfl, rfl, ?_⟩
        intro c hc
        exact Option.noConfusion hc
    | some c0 =>
        refine ⟨_, _, [Effect.closeCall c0.peer, Effect.reloadUsers],
          answerCall_eq q ⟨some u, some m, pe, pid, some c0, pen, n⟩, rfl, rfl, ?_⟩
        intro c hc
        have hc2 : some c0 = some c := hc
        rw [Option.some.injEq] at hc2
        subst hc2
        exact List.mem_cons_self _ _

/-- Witness for C1 at a concrete state that already holds a session. -/
theorem single_session_witness :
    ((callToUser (some "p2") ⟨some "me", some 5, some 1, some "pm",
        some ⟨some "pOld", true, true⟩, [], 0⟩).map (fun r => r.1.call) =
      some (some ⟨some "p2", true, true⟩)) ∧
    ((answerCall (some "p3") ⟨some "me", some 5, some 1, some "pm",
        some ⟨some "pOld", true, true⟩, [], 0⟩).1.call = some ⟨some "p3", false, true⟩) := by
  obtain ⟨h1, h2⟩ := callToUser_answerCall_single_session
      ⟨some "me", some 5, some 1, some "pm", some ⟨some "pOld", true, true⟩, [], 0⟩
      "p2" (some "p3") 5 "me" rfl rfl
  constructor
  · obtain ⟨s1, effs1, pre1, heq, hcall, h3, h4⟩ := h1
    rw [heq]
    simpa using hcall
  · obtain ⟨s2, effs2, pre2, heq, hcall, h3, h4⟩ := h2
    rw [heq]
    exact hcall

/-- Claim C2 counterexample: a session accepted via answerCall carries no
close handler, so a broker close signal leaves the session intact — the
coordinator does not return to Idle, nothing is torn down and no roster
rebuild is triggered, contradicting the claim for answered sessions. -/
theorem answered_session_ignores_close :
    (answerCall (some "pA") ⟨some "me", some 7, some 1, some "pm", none, [], 0⟩).1.call =
      some ⟨some "pA", false, true⟩ ∧
    deliverCallEvent CallEv.close
        ⟨some "me", some 7, some 1, some "pm", some ⟨some "pA", false, true⟩, [], 0⟩ =
      (⟨some "me", some 7, some 1, some "pm", some ⟨some "pA", false, true⟩, [], 0⟩, []) := by
  decide

/-- Claim C2 as amended: a broker error on any session with the error
handler registered (both creation paths register it) tears the session down
(set to null and closed), logs, triggers the roster rebuild and performs no
retry; a broker close does the same exactly when the close handler was
registered — which callToUser does and answerCall does not — and otherwise
leaves the state untouched. -/
theorem broker_event_teardown_semantics (s : State) (c : CallHandle) (h : s.call = some c) :
    (c.onErrorEnds = true →
      deliverCallEvent CallEv.error s =
        ({ s with call := none },
         [Effect.logError, Effect.closeCall c.peer, Effect.reloadUsers])) ∧
    (c.onCloseEnds = true →
      deliverCallEvent CallEv.close s =
        ({ s with call := none }, [Effect.closeCall c.peer, Effect.reloadUsers])) ∧
    (c.onCloseEnds = false → deliverCallEvent CallEv.close s = (s, [])) := by
  obtain ⟨cu, ms, pe, pid, ca, pen, n⟩ := s
  have h2 : ca = some c := h
  subst h2
  refine ⟨?_, ?_, ?_⟩ <;> intro hflag <;> simp [deliverCallEvent, endCall, hflag]

/-- Witness for the amended C2 on a concrete outbound-style session. -/
theorem broker_event_teardown_semantics_witness :
    deliverCallEvent CallEv.error
        ⟨some "me", some 7, some 1, none, some ⟨some "pB", true, true⟩, [], 0⟩ =
      (⟨some "me", some 7, some 1, none, none, [], 0⟩,
       [Effect.logError, Effect.closeCall (some "pB"), Effect.reloadUsers]) :=
  (broker_event_teardown_semantics
      ⟨some "me", some 7, some 1, none, some ⟨some "pB", true, true⟩, [], 0⟩
      ⟨some "pB", true, true⟩ rfl).1 rfl

/-- Claim C3 (code bug): invoking call-to-peer for p1 before the media
stream is acquired defers the attempt, and the retry fires exactly once
right after acquisition succeeds — but initMeidaStream invokes the stored
continuation as cb() with no argument, so the retried callToUser runs with
peer id undefined and the broker call is placed with peer none instead of
p1.  When acquisition fails, no call is placed and no session is created. -/
theorem deferred_call_retry_drops_peer :
    run [Ev.userCall "p1", Ev.acqOk] ⟨some "me", none, some 1, some "pm", none, [], 0⟩ =
      some (⟨some "me", some 0, some 1, some "pm", some ⟨none, true, true⟩, [], 1⟩,
            [Effect.acquireMedia, Effect.attachLocalVideo,
             Effect.brokerCall none, Effect.reloadUsers]) ∧
    Effect.brokerCall (some "p1") ∉
      [Effect.acquireMedia, Effect.attachLocalVideo,
       Effect.brokerCall none, Effect.reloadUsers] ∧
    run [Ev.userCall "p1", Ev.acqFail] ⟨some "me", none, some 1, some "pm", none, [], 0⟩ =
      some (⟨some "me", none, some 1, some "pm", none, [], 0⟩,
            [Effect.acquireMedia, Effect.logError]) := by
  decide

/-- Claim C9 counterexample: after a first sign-in and a successful
acquisition the stream is cached, yet a further sign-in event
unconditionally starts media acquisition again — the trace of the
three-event run contains two acquisition initiations, refuting the
never-re-acquire-after-success policy over sign-in sequences. -/
theorem signin_reinitiates_acquisition :
    (run [Ev.signIn "me", Ev.acqOk] ⟨none, none, none, none, none, [], 0⟩).map
        (fun r => r.1.mediaStream) = some (some 0) ∧
    (run [Ev.signIn "me", Ev.acqOk, Ev.signIn "me"] ⟨none, none, none, none, none, [], 0⟩).map
        (fun r => countEffect Effect.acquireMedia r.2) = some 2 := by
  decide

/-- Claim C9 as amended: call attempts do follow the acquire-once-cache
policy — callToUser initiates acquisition only when no stream is cached and
otherwise reuses the cached stream without re-acquiring — but sign-in events
re-initiate acquisition unconditionally (see the counterexample). -/
theorem call_reuses_cached_stream (s s0 : State) (p p0 : Option String) (m : Nat)
    (h : s.mediaStream = some m) (h0 : s0.mediaStream = none) :
    (∀ s2 effs, callToUser p s = some (s2, effs) →
        s2.mediaStream = some m ∧ Effect.acquireMedia ∉ effs) ∧
    callToUser p0 s0 =
      some ({ s0 with pending := s0.pending ++ [Cont.retryCall] }, [Effect.acquireMedia]) := by
  constructor
  · obtain ⟨cu, ms, pe, pid, ca, pen, n⟩ := s
    have h2 : ms = some m := h
    subst h2
    intro s2 effs heq
    cases pe with
    | some k =>
        rw [callToUser_peer_some] at heq
        rw [Option.some.injEq, Prod.mk.injEq] at heq
        obtain ⟨h3, h4⟩ := heq
        subst h3
        subst h4
        refine ⟨rfl, ?_⟩
        cases ca <;> simp
    | none =>
        cases cu with
        | some u2 =>
            rw [callToUser_some] at heq
            rw [Option.some.injEq, Prod.mk.injEq] at heq
            obtain ⟨h3, h4⟩ := heq
            subst h3
            subst h4
            refine ⟨rfl, ?_⟩
            cases ca <;> simp
        | none =>
            rw [callToUser_cached_crash] at heq
            exact Option.noConfusion heq
  · exact callToUser_nostream p0 s0 h0

/-- Witness for the amended C9 at concrete cached and uncached states. -/
theorem call_reuses_cached_stream_witness :
    ((∀ s2 effs,
        callToUser (some "p1") ⟨some "me", some 4, some 1, none, none, [], 9⟩ =
          some (s2, effs) →
        s2.mediaStream = some 4 ∧ Effect.acquireMedia ∉ effs) ∧
     callToUser (some "p1") ⟨some "me", none, some 1, none, none, [], 9⟩ =
       some (⟨some "me", none, some 1, none, none, [Cont.retryCall], 9⟩,
             [Effect.acquireMedia])) :=
  call_reuses_cached_stream ⟨some "me", some 4, some 1, none, none, [], 9⟩
    ⟨some "me", none, some 1, none, none, [], 9⟩ (some "p1") (some "p1") 4 rfl rfl

/-- The DOM upsert of displayUser coincides with the store's child write:
both replace the first entry at the key or append a fresh one. -/
theorem displayUser_eq_storeSet (uid : String) (r : URec) (l : Roster) :
    displayUser uid r l = storeSet uid r l := by
  induction l with
  | nil => rfl
  | cons e rest ih =>
      simp only [displayUser, storeSet]
      split <;> simp [ih]

/-- Upserting an absent key appends the entry at the end. -/
theorem displayUser_not_mem (uid : String) (r : URec) (v : Roster)
    (h : uid ∉ keys v) : displayUser uid r v = v ++ [(uid, r)] := by
  induction v with
  | nil => rfl
  | cons e rest ih =>
      simp only [keys, List.map_cons, List.mem_cons] at h
      push_neg at h
      simp only [displayUser]
      rw [if_neg (fun hh => h.1 hh.symm), ih h.2]
      rfl

/-- Replaying child_added events over a key-distinct collection appends it
entry by entry to the accumulated view. -/
theorem foldl_displayUser (c : Roster) : ∀ v : Roster,
    (keys c).Nodup → (∀ k ∈ keys c, k ∉ keys v) →
    c.foldl (fun v2 e => displayUser e.1 e.2 v2) v = v ++ c := by
  induction c with
  | nil => intro v h1 h2; simp
  | cons e rest ih =>
      intro v hnd hdis
      simp only [List.foldl_cons]
      rw [displayUser_not_mem e.1 e.2 v (hdis e.1 (by simp [keys]))]
      have hnd2 : (keys rest).Nodup := by
        simp only [keys, List.map_cons, List.nodup_cons] at hnd
        exact hnd.2
      have hdis2 : ∀ k ∈ keys rest, k ∉ keys (v ++ [(e.1, e.2)]) := by
        intro k hk
        simp only [keys, List.map_append, List.mem_append, List.map_cons, List.map_nil,
          List.mem_singleton]
        push_neg
        refine ⟨hdis k (by simp only [keys, List.map_cons, List.mem_cons]; exact Or.inr hk), ?_⟩
        intro hke
        simp only [keys, List.map_cons, List.nodup_cons] at hnd
        exact hnd.1 (hke ▸ hk)
      rw [ih (v ++ [(e.1, e.2)]) hnd2 hdis2]
      simp

/-- Subscribing over a key-distinct collection reproduces it exactly. -/
theorem loadUsers_eq (c : Roster) (h : (keys c).Nodup) : loadUsers c = c := by
  unfold loadUsers
  rw [foldl_displayUser c [] h (by intro k hk; simp [keys])]
  simp

/-- Keys present after a store child write. -/
theorem mem_keys_storeSet (uid : String) (r : URec) (c : Roster) (k : String) :
    k ∈ keys (storeSet uid r c) ↔ k ∈ keys c ∨ k = uid := by
  induction c with
  | nil => simp [storeSet, keys]
  | cons e rest ih =>
      simp only [storeSet]
      split
      · next heq =>
          simp only [keys, List.map_cons, List.mem_cons] at ih ⊢
          rw [heq]
          tauto
      · next hne =>
          simp only [keys, List.map_cons, List.mem_cons] at ih ⊢
          rw [ih]
          tauto

/-- A store child write preserves key distinctness. -/
theorem nodup_keys_storeSet (uid : String) (r : URec) (c : Roster)
    (h : (keys c).Nodup) : (keys (storeSet uid r c)).Nodup := by
  induction c with
  | nil => simp [storeSet, keys]
  | cons e rest ih =>
      simp only [keys, List.map_cons, List.nodup_cons] at h
      simp only [storeSet]
      split
      · next heq =>
          simp only [keys, List.map_cons, List.nodup_cons]
          refine ⟨?_, h.2⟩
          rw [← heq]
          exact h.1
      · next hne =>
          simp only [keys, List.map_cons, List.nodup_cons]
          refine ⟨?_, ih h.2⟩
          intro hmem
          rcases (mem_keys_storeSet uid r rest e.1).mp hmem with h2 | h2
          · exact h.1 h2
          · exact hne h2

/-- Keys surviving a store child removal were present before. -/
theorem mem_keys_removeKey (uid k : String) (c : Roster)
    (h : k ∈ keys (removeKey uid c)) : k ∈ keys c := by
  induction c with
  | nil => exact h
  | cons e rest ih =>
      simp only [removeKey] at h
      by_cases heq : e.1 = uid
      · rw [if_pos heq] at h
        simp only [keys, List.map_cons, List.mem_cons]
        exact Or.inr (ih h)
      · rw [if_neg heq] at h
        simp only [keys, List.map_cons, List.mem_cons] at h ⊢
        rcases h with h | h
        · exact Or.inl h
        · exact Or.inr (ih h)

/-- A store child removal preserves key distinctness. -/
theorem nodup_keys_removeKey (uid : String) (c : Roster)
    (h : (keys c).Nodup) : (keys (removeKey uid c)).Nodup := by
  induction c with
  | nil => exact h
  | cons e rest ih =>
      simp only [keys, List.map_cons, List.nodup_cons] at h
      simp only [removeKey]
      by_cases heq : e.1 = uid
      · rw [if_pos heq]
        exact ih h.2
      · rw [if_neg heq]
        simp only [keys, List.map_cons, List.nodup_cons]
        exact ⟨fun hmem => h.1 (mem_keys_removeKey uid e.1 rest hmem), ih h.2⟩

/-- Removing an absent key leaves the collection unchanged. -/
theorem removeKey_not_mem (uid : String) (c : Roster) (h : uid ∉ keys c) :
    removeKey uid c = c := by
  induction c with
  | nil => rfl
  | cons e rest ih =>
      simp only [keys, List.map_cons, List.mem_cons] at h
      push_neg at h
      simp only [removeKey]
      rw [if_neg (fun hh => h.1 hh.symm), ih h.2]

/-- One synchronizer step preserves key distinctness of the collection and
the view-equals-collection invariant. -/
theorem rosterStep_inv (st : Roster × Roster) (m : UserMut)
    (h1 : (keys st.1).Nodup) (h2 : st.2 = st.1) :
    (keys (rosterStep st m).1).Nodup ∧ (rosterStep st m).2 = (rosterStep st m).1 := by
  cases m with
  | set uid r =>
      refine ⟨nodup_keys_storeSet uid r st.1 h1, ?_⟩
      simp only [rosterStep, applyMut]
      rw [h2, displayUser_eq_storeSet]
  | remove uid =>
      simp only [rosterStep, applyMut]
      by_cases hmem : uid ∈ keys st.1
      · rw [if_pos hmem]
        exact ⟨nodup_keys_removeKey uid st.1 h1,
               loadUsers_eq _ (nodup_keys_removeKey uid st.1 h1)⟩
      · rw [if_neg hmem]
        refine ⟨?_, ?_⟩
        · rw [removeKey_not_mem uid st.1 hmem]
          exact h1
        · rw [removeKey_not_mem uid st.1 hmem]
          exact h2

/-- The invariant of rosterStep_inv holds along any mutation sequence. -/
theorem foldl_rosterStep_inv (ms : List UserMut) : ∀ st : Roster × Roster,
    (keys st.1).Nodup → st.2 = st.1 →
    (keys (ms.foldl rosterStep st).1).Nodup ∧
      (ms.foldl rosterStep st).2 = (ms.foldl rosterStep st).1 := by
  induction ms with
  | nil => intro st h1 h2; exact ⟨h1, h2⟩
  | cons m rest ih =>
      intro st h1 h2
      simp only [List.foldl_cons]
      exact ih (rosterStep st m) (rosterStep_inv st m h1 h2).1 (rosterStep_inv st m h1 h2).2

/-- Claim C4: for every sequence of user-collection mutations over a
key-distinct starting collection, the Roster View after processing carries
exactly the uids of the final collection state — additions and changes
upsert the single entry keyed by uid, and removals rebuild the whole view
from the collection, so no ghost and no missing entries remain. -/
theorem roster_view_matches_collection (ms : List UserMut) (c0 : Roster)
    (h : (keys c0).Nodup) :
    keys (rosterRun ms c0).2 = keys (rosterRun ms c0).1 := by
  unfold rosterRun
  have h0 : loadUsers c0 = c0 := loadUsers_eq c0 h
  have h3 := foldl_rosterStep_inv ms (c0, loadUsers c0) h h0
  rw [h3.2]

/-- Witness for C4 on a concrete sequence with an addition, a change and a
removal. -/
theorem roster_view_matches_collection_witness :
    keys (rosterRun
        [UserMut.set "b" ⟨"Bee", none, some "pb"⟩,
         UserMut.set "b" ⟨"Bee", none, some "pb2"⟩,
         UserMut.remove "a"]
        [("a", ⟨"Aye", none, none⟩)]).2 =
      keys (rosterRun
        [UserMut.set "b" ⟨"Bee", none, some "pb"⟩,
         UserMut.set "b" ⟨"Bee", none, some "pb2"⟩,
         UserMut.remove "a"]
        [("a", ⟨"Aye", none, none⟩)]).1 :=
  roster_view_matches_collection _ _ (by decide)

/-- Claim C5: the call affordance rendered for a roster entry is a function
of the entry and the current session state: none for the local user's own
uid, none for a remote entry without a peer id, the start-call control for a
remote entry with peer id p and no active connection under p, and the
end-call control exactly when a connection under p is active. -/
theorem displayUser_call_affordance (cu uid : String) (pid : Option String)
    (conns : List String) :
    (cu = uid → callAffordance cu uid pid conns = Affordance.noBtn) ∧
    (cu ≠ uid → pid = none → callAffordance cu uid pid conns = Affordance.noBtn) ∧
    (∀ p2, cu ≠ uid → pid = some p2 → p2 ∉ conns →
        callAffordance cu uid pid conns = Affordance.callBtn p2) ∧
    (∀ p2, cu ≠ uid → pid = some p2 → p2 ∈ conns →
        callAffordance cu uid pid conns = Affordance.callEndBtn) := by
  refine ⟨?_, ?_, ?_, ?_⟩
  · intro h
    simp [callAffordance, h]
  · intro h hp
    simp [callAffordance, h, hp]
  · intro p2 h hp hmem
    simp [callAffordance, h, hp, hmem]
  · intro p2 h hp hmem
    simp [callAffordance, h, hp, hmem]

/-- Witness for C5 covering all four affordance cases. -/
theorem displayUser_call_affordance_witness :
    callAffordance "u1" "u1" (some "p9") [] = Affordance.noBtn ∧
    callAffordance "u1" "u2" none [] = Affordance.noBtn ∧
    callAffordance "u1" "u2" (some "p9") [] = Affordance.callBtn "p9" ∧
    callAffordance "u1" "u2" (some "p9") ["p9"] = Affordance.callEndBtn :=
  ⟨(displayUser_call_affordance "u1" "u1" (some "p9") []).1 rfl,
   (displayUser_call_affordance "u1" "u2" none []).2.1 (by decide) rfl,
   (displayUser_call_affordance "u1" "u2" (some "p9") []).2.2.1 "p9" (by decide) rfl
     (by decide),
   (displayUser_call_affordance "u1" "u2" (some "p9") ["p9"]).2.2.2 "p9" (by decide) rfl
     (by decide)⟩

/-- Rendering a key into a feed holding at most one entry for it leaves
exactly one entry for that key. -/
theorem countKey_displayMessage_self (resolve : String → String) (k n : String)
    (t p i : Option String) (l : List MsgEntry) (h : countKey k l ≤ 1) :
    countKey k (displayMessage resolve k n t p i l) = 1 := by
  induction l with
  | nil => simp [displayMessage, countKey]
  | cons e rest ih =>
      simp only [displayMessage]
      by_cases heq : e.key = k
      · rw [if_pos heq]
        simp only [countKey, if_pos heq] at h
        simp only [countKey]
        simp
        omega
      · rw [if_neg heq]
        simp only [countKey, if_neg heq] at h
        simp only [countKey, if_neg heq]
        rw [ih (by omega)]

/-- Rendering one key never changes the entry count of another key. -/
theorem countKey_displayMessage_other (resolve : String → String) (k k2 n : String)
    (t p i : Option String) (l : List MsgEntry) (h : k2 ≠ k) :
    countKey k2 (displayMessage resolve k n t p i l) = countKey k2 l := by
  induction l with
  | nil =>
      simp only [displayMessage, countKey]
      rw [if_neg (fun hh => h hh.symm)]
  | cons e rest ih =>
      simp only [displayMessage]
      by_cases heq : e.key = k
      · rw [if_pos heq]
        simp only [countKey]
        rw [if_neg (fun hh => h hh.symm), if_neg (by rw [heq]; exact fun hh => h hh.symm)]
      · rw [if_neg heq]
        simp only [countKey, ih]

/-- Rendering appends exactly one entry for a fresh key and keeps the length
for an already rendered key. -/
theorem length_displayMessage (resolve : String → String) (k n : String)
    (t p i : Option String) (l : List MsgEntry) :
    (displayMessage resolve k n t p i l).length =
      if countKey k l = 0 then l.length + 1 else l.length := by
  induction l with
  | nil => simp [displayMessage, countKey]
  | cons e rest ih =>
      simp only [displayMessage]
      by_cases heq : e.key = k
      · have hnz : countKey k (e :: rest) ≠ 0 := by
          simp only [countKey]
          rw [if_pos heq]
          omega
        rw [if_pos heq, if_neg hnz]
        simp
      · rw [if_neg heq]
        simp only [List.length_cons, ih, countKey, if_neg heq, Nat.zero_add]
        by_cases hc : countKey k rest = 0 <;> simp [hc]

/-- Claim C6: the message feed subscribes to the last 12 entries for both
addition and change events, and rendering is idempotent per store-assigned
key — an event for an already rendered key updates it in place (same length,
still one entry for the key), an event for a fresh key appends exactly one
entry, and no key ever carries two visual entries. -/
theorem message_feed_idempotent_render (resolve : String → String) (k n : String)
    (t p i : Option String) (l : List MsgEntry) (h : ∀ k2, countKey k2 l ≤ 1) :
    loadMessages = [⟨12, ChildEvent.added⟩, ⟨12, ChildEvent.changed⟩] ∧
    countKey k (displayMessage resolve k n t p i l) = 1 ∧
    (∀ k2, countKey k2 (displayMessage resolve k n t p i l) ≤ 1) ∧
    (displayMessage resolve k n t p i l).length =
      (if countKey k l = 0 then l.length + 1 else l.length) := by
  refine ⟨rfl, countKey_displayMessage_self resolve k n t p i l (h k), ?_,
    length_displayMessage resolve k n t p i l⟩
  intro k2
  by_cases hk : k2 = k
  · rw [hk, countKey_displayMessage_self resolve k n t p i l (h k)]
  · rw [countKey_displayMessage_other resolve k k2 n t p i l hk]
    exact h k2

/-- Witness for C6 rendering a fresh key into an empty feed. -/
theorem message_feed_idempotent_render_witness :
    loadMessages = [⟨12, ChildEvent.added⟩, ⟨12, ChildEvent.changed⟩] ∧
    countKey "k1" (displayMessage id "k1" "Ann" (some "hi") none none []) = 1 ∧
    (∀ k2, countKey k2 (displayMessage id "k1" "Ann" (some "hi") none none []) ≤ 1) ∧
    (displayMessage id "k1" "Ann" (some "hi") none none []).length =
      (if countKey "k1" ([] : List MsgEntry) = 0 then ([] : List MsgEntry).length + 1
       else ([] : List MsgEntry).length) :=
  message_feed_idempotent_render id "k1" "Ann" (some "hi") none none []
    (fun k2 => by simp [countKey])

/-- Claim C7: a message entry with only text renders through the text path
(newlines becoming line breaks) and never invokes setImageUrl; an entry with
only an image reference renders through setImageUrl — showing the loading
placeholder first and then the resolved url on the same entry when the
reference is a gs:// storage locator, and the direct url with no update
otherwise — and re-rendering the same key (as the placeholder update does)
never creates a second visual entry. -/
theorem message_render_paths (resolve : String → String) (t u km n1 n2 : String)
    (p1 p2 : Option String) (l : List MsgEntry)
    (ht : t ≠ "") (hu : u ≠ "") (hl : countKey km l ≤ 1) :
    renderMessage resolve (some t) none = (MsgBody.textBody (newlinesToBr t), false) ∧
    (u.startsWith "gs://" = true →
      renderMessage resolve none (some u) =
        (MsgBody.imageBody LOADING_IMAGE_URL (some (resolve u)), true)) ∧
    (u.startsWith "gs://" = false →
      renderMessage resolve none (some u) = (MsgBody.imageBody u none, true)) ∧
    countKey km (displayMessage resolve km n2 none p2 (some u)
        (displayMessage resolve km n1 none p1 (some u) l)) = 1 ∧
    (displayMessage resolve km n2 none p2 (some u)
        (displayMessage resolve km n1 none p1 (some u) l)).length =
      (displayMessage resolve km n1 none p1 (some u) l).length := by
  have h1 := countKey_displayMessage_self resolve km n1 none p1 (some u) l hl
  refine ⟨?_, ?_, ?_, ?_, ?_⟩
  · simp [renderMessage, truthy, ht]
  · intro hgs
    simp [renderMessage, truthy, hu, setImageUrl, hgs]
  · intro hgs
    simp [renderMessage, truthy, hu, setImageUrl, hgs]
  · exact countKey_displayMessage_self resolve km n2 none p2 (some u) _ (by rw [h1])
  · rw [length_displayMessage, if_neg (by rw [h1]; omega)]

/-- Witness for C7 with a text entry, both image reference kinds and a
placeholder-update re-render. -/
theorem message_render_paths_witness :
    renderMessage id (some "a\nb") none =
      (MsgBody.textBody (newlinesToBr "a\nb"), false) ∧
    (String.startsWith "gs://bkt/f" "gs://" = true →
      renderMessage id none (some "gs://bkt/f") =
        (MsgBody.imageBody LOADING_IMAGE_URL (some (id "gs://bkt/f")), true)) ∧
    (String.startsWith "gs://bkt/f" "gs://" = false →
      renderMessage id none (some "gs://bkt/f") =
        (MsgBody.imageBody "gs://bkt/f" none, true)) ∧
    countKey "k2" (displayMessage id "k2" "Ann" none none (some "gs://bkt/f")
        (displayMessage id "k2" "Ann" none none (some "gs://bkt/f") [])) = 1 ∧
    (displayMessage id "k2" "Ann" none none (some "gs://bkt/f")
        (displayMessage id "k2" "Ann" none none (some "gs://bkt/f") [])).length =
      (displayMessage id "k2" "Ann" none none (some "gs://bkt/f") []).length :=
  message_render_paths id "a\nb" "gs://bkt/f" "k2" "Ann" "Ann" none none []
    (by decide) (by decide) (by simp [countKey])

/-- Claim C8 counterexample: submitting an empty message is dropped by the
short-circuiting guard before the sign-in check runs — the effect list is
empty, so no transient UI notification is shown, contradicting the claim
that every validation failure is reported via a notification. -/
theorem empty_message_not_notified :
    saveMessage "" true = [] ∧ saveMessage "" false = [] := by
  decide

/-- Claim C8 as amended: an empty-message submission is silently ignored —
no notification, no store write, no other effect — while a non-image file
selection is reported via the transient snackbar and likewise causes no
store write and no other state change. -/
theorem validation_failure_effects (t : String) (b : Bool)
    (h : matchesImageType t = false) :
    saveMessage "" b = [] ∧
    saveImageMessage t b = [MsgEffect.snackbarNote "You can only share images"] := by
  constructor
  · simp [saveMessage]
  · simp [saveImageMessage, h]

/-- Witness for the amended C8 with a plain-text file type. -/
theorem validation_failure_effects_witness :
    saveMessage "" true = [] ∧
    saveImageMessage "text/plain" true =
      [MsgEffect.snackbarNote "You can only share images"] :=
  validation_failure_effects "text/plain" true (by decide)

/-- Claim C10: the inbound-call handler resolves the caller through the
rendered roster; when no rendered entry carries the caller's peer identifier
the lookup dereferences null and reciveCall throws before any notification
is surfaced, and when an entry is found the 6-second answer notification for
that entry's name is produced. -/
theorem reciveCall_roster_precondition (roster : List RosterEntry) (p : String) :
    (roster.find? (fun e => decide (e.phoneBtnId = some p)) = none →
        reciveCall roster p = Except.error ()) ∧
    (∀ e, roster.find? (fun e2 => decide (e2.phoneBtnId = some p)) = some e →
        reciveCall roster p = Except.ok ⟨"Calling From " ++ e.name, 6000, true⟩) := by
  constructor
  · intro h
    simp [reciveCall, getUserByPeerId, h]
  · intro e h
    simp [reciveCall, getUserByPeerId, h]

/-- Witness for C10 on a one-entry roster: an unknown peer id throws, the
rendered peer id produces the notification. -/
theorem reciveCall_roster_precondition_witness :
    reciveCall [⟨"u1", "Ann", some "p1"⟩] "p2" = Except.error () ∧
    reciveCall [⟨"u1", "Ann", some "p1"⟩] "p1" =
      Except.ok ⟨"Calling From " ++ "Ann", 6000, true⟩ :=
  ⟨(reciveCall_roster_precondition [⟨"u1", "Ann", some "p1"⟩] "p2").1 (by decide),
   (reciveCall_roster_precondition [⟨"u1", "Ann", some "p1"⟩] "p1").2
     ⟨"u1", "Ann", some "p1"⟩ (by decide)⟩

end FriendlyChat
